import Mathlib

/-
Verification of the distributed task lease coordinator and scheduling loop
of the tomasaschan/backstage repository, together with the service-reference
layer in packages/backend-plugin-api/src/services/system/types.ts.

The lease store, scheduling loop and janitor bodies (PluginTaskSchedulerImpl,
PluginTaskSchedulerJanitor, migrateBackendTasks) are not present in the
sampled sources; only their callers appear in types.ts.  Those parts are
modelled from the specification text, as marked on each definition.
Everything concerning createServiceRef, createServiceFactory and
TaskScheduler.forPlugin is embedded directly from types.ts.
-/

namespace BackstageTasks

/-- Scope of a service reference, embedded from the TScope type parameter
of ServiceRef in types.ts: either root or plugin. -/
inductive Scope where
  | root
  | plugin
deriving DecidableEq, Repr

/-- Embedded from the ServiceRef type in types.ts: a service reference value
carries an id, a scope, the marker field named with two dollar signs in the
source (refTag here), a toString rendering, and the phantom T property whose
getter throws on every read (readT here, an Except value that is always an
error). -/
structure ServiceRefModel (T : Type) where
  id : String
  scope : Scope
  refTag : String
  toStr : String
  readT : Except String T

/-- Embedded from createServiceRef in types.ts: builds the reference object
with the given id and scope, refTag set to the literal string service, a
toString that renders serviceRef around the id, and a getter for T that
throws an Error mentioning the stringified reference. -/
def createServiceRef (T : Type) (id : String) (scope : Scope) : ServiceRefModel T :=
  { id := id
    scope := scope
    refTag := "service"
    toStr := "serviceRef\x7b" ++ id ++ "\x7d"
    readT := Except.error ("tried to read ServiceRef.T of serviceRef\x7b" ++ id ++ "\x7d") }

/-- Modelled from the spec: one persisted lease row (the lease store bodies
are absent from the sampled sources).  Per task id the shared table records
the current holder (empty when unclaimed), the lease expiry timestamp, the
next-due timestamp, and the monotonically increasing fencing counter. -/
structure LeaseRow where
  holder : Option String
  expiresAt : Nat
  nextDueAt : Option Nat
  token : Nat
deriving DecidableEq, Repr

/-- Modelled from the spec: result of a claim attempt, either a fencing
token or the silent ClaimNotAcquired outcome. -/
inductive ClaimResult where
  | claimed (token : Nat)
  | notClaimed
deriving DecidableEq, Repr

/-- True exactly on the successful claim outcome. -/
def ClaimResult.isClaimed : ClaimResult → Bool
  | .claimed _ => true
  | .notClaimed => false

/-- Modelled from the spec: the claim predicate, true when the row's holder
is empty or its expiry is in the past. -/
def claimableAt (r : LeaseRow) (now : Nat) : Bool :=
  r.holder.isNone || decide (r.expiresAt < now)

/-- Modelled from the spec: tryClaim is a single atomic conditional update;
when the row is claimable it installs the holder, sets expiry to now plus
the lease duration, increments the fencing counter and returns it; otherwise
it returns ClaimNotAcquired and leaves the row untouched. -/
def tryClaim (r : LeaseRow) (holderId : String) (leaseDuration now : Nat) :
    ClaimResult × LeaseRow :=
  if claimableAt r now then
    (ClaimResult.claimed (r.token + 1),
     { r with holder := some holderId, expiresAt := now + leaseDuration, token := r.token + 1 })
  else
    (ClaimResult.notClaimed, r)

/-- Modelled from the spec: result of a renew attempt, either renewed or
the LostLeaseError signal. -/
inductive RenewResult where
  | renewed
  | lostLease
deriving DecidableEq, Repr

/-- Modelled from the spec: renew succeeds only if the holder id and fencing
token still match the row, extending the expiry; otherwise it fails with
LostLeaseError and mutates nothing. -/
def renew (r : LeaseRow) (holderId : String) (token leaseDuration now : Nat) :
    RenewResult × LeaseRow :=
  if r.holder = some holderId ∧ r.token = token then
    (RenewResult.renewed, { r with expiresAt := now + leaseDuration })
  else
    (RenewResult.lostLease, r)

/-- Modelled from the spec: release clears the holder and schedules the next
due time when the holder id and token still match; otherwise it is a no-op,
not an error. -/
def release (r : LeaseRow) (holderId : String) (token : Nat) (nextDueAt : Option Nat) :
    LeaseRow :=
  if r.holder = some holderId ∧ r.token = token then
    { r with holder := none, nextDueAt := nextDueAt }
  else
    r

/-- Modelled from the spec: clearing abandoned holder state on a row; the
janitor clears the holder but never deletes the row. -/
def clearHolder (r : LeaseRow) : LeaseRow :=
  { r with holder := none }

/-- Modelled from the spec: the per-row effect of markOrphaned, clearing the
holder exactly when the row's expiry is older than the cutoff. -/
def sweepRow (olderThan : Nat) (p : String × LeaseRow) : String × LeaseRow :=
  if p.2.expiresAt < olderThan then (p.1, clearHolder p.2) else p

/-- Modelled from the spec: markOrphaned scans all lease rows, clears the
holder on any row whose expiry is older than the cutoff regardless of which
holder, and returns the affected task ids; no row is ever deleted. -/
def markOrphaned (olderThan : Nat) (store : List (String × LeaseRow)) :
    List String × List (String × LeaseRow) :=
  ((store.filter fun p => decide (p.2.expiresAt < olderThan)).map Prod.fst,
   store.map (sweepRow olderThan))

/-- Modelled from the spec: the janitor sweep clears any row whose expiry is
older than the grace period before now. -/
def sweep (now gracePeriod : Nat) (store : List (String × LeaseRow)) :
    List String × List (String × LeaseRow) :=
  markOrphaned (now - gracePeriod) store

/-- Modelled from the spec: a lease is non-expired (active) at an instant
when it has a holder and the instant is not past its expiry. -/
def activeLease (r : LeaseRow) (now : Nat) : Bool :=
  r.holder.isSome && decide (now ≤ r.expiresAt)

/-- Modelled from the spec: N racing claim attempts with the same now; each
attempt is itself an atomic conditional update, so linearizability of the
datastore means the race is some sequential order of the attempts. -/
def runClaims : List String → Nat → Nat → LeaseRow → List ClaimResult × LeaseRow
  | [], _, _, r => ([], r)
  | h :: hs, d, now, r =>
    let step := tryClaim r h d now
    let rest := runClaims hs d now step.2
    (step.1 :: rest.1, rest.2)

/-- Modelled from the spec: observable behavior of a work function body,
which either completes after some duration (succeeding or throwing) or
never returns. -/
inductive WorkBehavior where
  | completes (duration : Nat) (throws : Bool)
  | neverReturns
deriving DecidableEq, Repr

/-- Modelled from the spec: classification of an execution outcome; failures
and timeouts are classified as TaskExecutionError. -/
inductive ExecOutcome where
  | success
  | taskExecutionError
deriving DecidableEq, Repr

/-- Modelled from the spec: record of one timed execution, with the instant
the cancellation signal was raised (if any) and the instant the lease was
released. -/
structure ExecRecord where
  outcome : ExecOutcome
  cancellationRaisedAt : Option Nat
  leaseReleasedAt : Nat
deriving DecidableEq, Repr

/-- Modelled from the spec: running the work function under a hard timeout.
If the body finishes within the timeout the lease is released then; if the
timeout elapses the cancellation signal is raised at claim time plus timeout
and the lease is force-released after at most a bounded grace period, even
when the body never returns. -/
def runWithTimeout (claimAt timeout grace : Nat) (w : WorkBehavior) : ExecRecord :=
  match w with
  | .completes dur throws =>
    if dur ≤ timeout then
      { outcome := if throws then ExecOutcome.taskExecutionError else ExecOutcome.success
        cancellationRaisedAt := none
        leaseReleasedAt := claimAt + dur }
    else
      { outcome := ExecOutcome.taskExecutionError
        cancellationRaisedAt := some (claimAt + timeout)
        leaseReleasedAt := claimAt + timeout + min (dur - timeout) grace }
  | .neverReturns =>
      { outcome := ExecOutcome.taskExecutionError
        cancellationRaisedAt := some (claimAt + timeout)
        leaseReleasedAt := claimAt + timeout + grace }

/-- Modelled from the spec: one structured log line carrying the task id. -/
structure LogEntry where
  taskId : String
  message : String
deriving DecidableEq, Repr

/-- Modelled from the spec: local outcome of one cadence tick. -/
inductive TickOutcome where
  | skipped
  | completed
  | failed
deriving DecidableEq, Repr

/-- Modelled from the spec: what one tick of the scheduling loop reports;
raised is the error, if any, that escapes the loop, and loopAlive records
whether the loop keeps running afterwards. -/
structure TickReport where
  outcome : TickOutcome
  raised : Option String
  log : List LogEntry
  loopAlive : Bool
deriving DecidableEq, Repr

/-- Modelled from the spec: one tick of the scheduling loop for a task.  It
attempts a claim; a failed claim is a silent skip.  On success it runs the
body under the timeout, catches any failure as TaskExecutionError, logs it
with the task id, releases the lease with the next due time, and keeps the
loop alive; no error propagates out. -/
def runTick (tid holderId : String) (r : LeaseRow)
    (leaseDuration timeout grace now cadence : Nat) (w : WorkBehavior) :
    TickReport × LeaseRow :=
  match tryClaim r holderId leaseDuration now with
  | (ClaimResult.notClaimed, r1) =>
      ({ outcome := TickOutcome.skipped, raised := none, log := [], loopAlive := true }, r1)
  | (ClaimResult.claimed tok, r1) =>
      let r2 := release r1 holderId tok (some (now + cadence))
      match (runWithTimeout now timeout grace w).outcome with
      | ExecOutcome.success =>
          ({ outcome := TickOutcome.completed
             raised := none
             log := [{ taskId := tid, message := "completed" }]
             loopAlive := true }, r2)
      | ExecOutcome.taskExecutionError =>
          ({ outcome := TickOutcome.failed
             raised := none
             log := [{ taskId := tid, message := "TaskExecutionError" }]
             loopAlive := true }, r2)

/-- Embedded from types.ts: the external configuration the spec says feeds
the scheduler (lease duration default, janitor interval, janitor grace
period), passed to TaskScheduler.fromConfig as the Config argument. -/
structure SchedulerExternalConfig where
  leaseDurationDefaultMs : Nat
  janitorIntervalMs : Nat
  janitorGracePeriodMs : Nat
deriving DecidableEq, Repr

/-- Embedded from types.ts: the arguments TaskScheduler.forPlugin hands to
the PluginTaskSchedulerJanitor constructor and whether start was called. -/
structure JanitorSetup where
  waitBetweenRunsMs : Nat
  started : Bool
deriving DecidableEq, Repr

/-- Embedded from types.ts: what one call of TaskScheduler.forPlugin sets up
for a plugin id. -/
structure PluginSchedulerSetup where
  pluginId : String
  janitor : JanitorSetup
deriving DecidableEq, Repr

/-- Embedded from TaskScheduler.forPlugin in types.ts: the janitor is always
constructed with waitBetweenRuns equal to the literal Duration of one minute
(60000 ms); no field of the configuration is consulted for it, and start is
called on it. -/
def forPlugin (_config : SchedulerExternalConfig) (pluginId : String) :
    PluginSchedulerSetup :=
  { pluginId := pluginId
    janitor := { waitBetweenRunsMs := 60000, started := true } }

/-- Embedded from TaskScheduler.forPlugin in types.ts: observable state of
the once-wrapped databaseFactory of one scheduler instance, counting how
many times migrateBackendTasks ran and how many times the janitor was
started. -/
structure FactoryState where
  hasRun : Bool
  migrateCount : Nat
  janitorStartCount : Nat
deriving DecidableEq, Repr

/-- Embedded from TaskScheduler.forPlugin in types.ts: fresh state of the
once wrapper created by each forPlugin call. -/
def freshFactoryState : FactoryState :=
  { hasRun := false, migrateCount := 0, janitorStartCount := 0 }

/-- Embedded from TaskScheduler.forPlugin in types.ts: one invocation of the
databaseFactory.  The body runs migrateBackendTasks unless the database
manager has migrations.skip set, then starts the janitor; the lodash once
wrapper makes every invocation after the first return the cached result
without re-running the body. -/
def invokeDatabaseFactory (migrationsSkip : Bool) (s : FactoryState) : FactoryState :=
  if s.hasRun then s
  else
    { hasRun := true
      migrateCount := s.migrateCount + (if migrationsSkip then 0 else 1)
      janitorStartCount := s.janitorStartCount + 1 }

/-- Iterated invocations of the once-wrapped databaseFactory. -/
def invokeTimes (migrationsSkip : Bool) : Nat → FactoryState → FactoryState
  | 0, s => s
  | n + 1, s => invokeTimes migrationsSkip n (invokeDatabaseFactory migrationsSkip s)

/-- The claim predicate in propositional form. -/
lemma claimableAt_iff (r : LeaseRow) (now : Nat) :
    claimableAt r now = true ↔ (r.holder = none ∨ r.expiresAt < now) := by
  simp [claimableAt, Option.isNone_iff_eq_none]

/-- A concrete row held by A with token 3, used as a witness input. -/
def rowBusy : LeaseRow :=
  { holder := some "A", expiresAt := 10, nextDueAt := none, token := 3 }

/-- C2: tryClaim succeeds and returns a fencing token exactly when the row's
holder is empty or its expiry is in the past; in every other case it returns
the silent not-claimed result, leaving the row unchanged, rather than
raising an error. -/
theorem tryClaim_claim (r : LeaseRow) (h : String) (d now : Nat) :
    ((tryClaim r h d now).1.isClaimed = true ↔ (r.holder = none ∨ r.expiresAt < now)) ∧
    (¬(r.holder = none ∨ r.expiresAt < now) →
      (tryClaim r h d now).1 = ClaimResult.notClaimed ∧ (tryClaim r h d now).2 = r) := by
  constructor
  · rw [← claimableAt_iff]
    cases hc : claimableAt r now
    · simp [tryClaim, hc, ClaimResult.isClaimed]
    · simp [tryClaim, hc, ClaimResult.isClaimed]
  · intro hnc
    have hc : claimableAt r now = false := by
      have hne : ¬claimableAt r now = true := fun ht => hnc ((claimableAt_iff r now).mp ht)
      exact Bool.eq_false_iff.mpr hne
    simp [tryClaim, hc]

/-- C2 witness: a row held by another holder with unexpired lease is not
claimed and is left unchanged. -/
theorem tryClaim_claim_witness :
    (tryClaim rowBusy "B" 5 3).1 = ClaimResult.notClaimed ∧
    (tryClaim rowBusy "B" 5 3).2 = rowBusy :=
  (tryClaim_claim rowBusy "B" 5 3).2 (by decide)

/-- A successful claim installs the holder, pushes the expiry past now and
increments the fencing counter. -/
lemma tryClaim_success_eq (r : LeaseRow) (h : String) (d now : Nat)
    (hc : claimableAt r now = true) :
    tryClaim r h d now =
      (ClaimResult.claimed (r.token + 1),
       { r with holder := some h, expiresAt := now + d, token := r.token + 1 }) := by
  simp [tryClaim, hc]

/-- Right after a successful claim the row is no longer claimable at the
same instant. -/
lemma tryClaim_post_not_claimable (r : LeaseRow) (h : String) (d now : Nat)
    (hc : claimableAt r now = true) :
    claimableAt (tryClaim r h d now).2 now = false := by
  rw [tryClaim_success_eq r h d now hc]
  simp [claimableAt]

/-- Claims raced against an unclaimable row all fail and leave it
unchanged. -/
lemma runClaims_none (hs : List String) (d now : Nat) (r : LeaseRow)
    (hc : claimableAt r now = false) :
    (runClaims hs d now r).1.countP ClaimResult.isClaimed = 0 ∧
    (runClaims hs d now r).2 = r := by
  induction hs with
  | nil => simp [runClaims]
  | cons h hs ih =>
    have hstep : tryClaim r h d now = (ClaimResult.notClaimed, r) := by
      simp [tryClaim, hc]
    simp [runClaims, hstep, List.countP_cons, ClaimResult.isClaimed, ih.1, ih.2]

/-- In a store whose keys are distinct, at most one row matches a fixed task
id together with any further predicate. -/
lemma filter_nodup_keys_le_one (tid : String) (now : Nat) :
    ∀ store : List (String × LeaseRow), (store.map Prod.fst).Nodup →
    (store.filter fun p => decide (p.1 = tid) && activeLease p.2 now).length ≤ 1 := by
  intro store
  induction store with
  | nil => intro _; simp
  | cons p rest ih =>
    intro hnd
    rw [List.map_cons, List.nodup_cons] at hnd
    obtain ⟨hp, hrest⟩ := hnd
    by_cases hq : (decide (p.1 = tid) && activeLease p.2 now) = true
    · have hempty : rest.filter (fun p => decide (p.1 = tid) && activeLease p.2 now) = [] := by
        rw [List.filter_eq_nil_iff]
        intro a ha hqa
        have h1 : a.1 = tid := of_decide_eq_true ((Bool.and_eq_true _ _).mp hqa).1
        have h2 : p.1 = tid := of_decide_eq_true ((Bool.and_eq_true _ _).mp hq).1
        exact hp (by rw [h2, ← h1]; exact List.mem_map_of_mem Prod.fst ha)
      simp [List.filter_cons, hq, hempty]
    · have hq' : (decide (p.1 = tid) && activeLease p.2 now) = false :=
        Bool.eq_false_iff.mpr hq
      simp only [List.filter_cons, hq', Bool.false_eq_true, if_false]
      exact ih hrest

/-- A concrete unclaimed row, used as a witness input. -/
def rowFree : LeaseRow :=
  { holder := none, expiresAt := 0, nextDueAt := none, token := 0 }

/-- C1: in a store with one row per task id, at most one non-expired lease
exists for a task id at any instant, and for any nonempty set of racing
tryClaim attempts on the same claimable row with the same now, exactly one
succeeds and every other outcome is ClaimNotAcquired. -/
theorem mutual_exclusion_claim (tid : String) (store : List (String × LeaseRow))
    (now : Nat) (hnodup : (store.map Prod.fst).Nodup)
    (r : LeaseRow) (holders : List String) (d : Nat)
    (hne : holders ≠ []) (hclaim : claimableAt r now = true) :
    (store.filter fun p => decide (p.1 = tid) && activeLease p.2 now).length ≤ 1 ∧
    (runClaims holders d now r).1.countP ClaimResult.isClaimed = 1 ∧
    ∀ res ∈ (runClaims holders d now r).1,
      res.isClaimed = true ∨ res = ClaimResult.notClaimed := by
  refine ⟨filter_nodup_keys_le_one tid now store hnodup, ?_, ?_⟩
  · obtain ⟨h, hs, rfl⟩ := List.exists_cons_of_ne_nil hne
    have hstep := tryClaim_success_eq r h d now hclaim
    have hpost := tryClaim_post_not_claimable r h d now hclaim
    have hrest := (runClaims_none hs d now (tryClaim r h d now).2 hpost).1
    rw [hstep] at hrest
    simp [runClaims, List.countP_cons, hstep, ClaimResult.isClaimed, hrest]
  · intro res _
    cases res with
    | claimed t => exact Or.inl rfl
    | notClaimed => exact Or.inr rfl

/-- C1 witness: three instances racing for the same free row at the same
instant produce exactly one successful claim. -/
theorem mutual_exclusion_claim_witness :
    (runClaims ["A", "B", "C"] 30 10 rowFree).1.countP ClaimResult.isClaimed = 1 :=
  (mutual_exclusion_claim "cleanup" [("cleanup", rowFree)] 10 (by decide) rowFree
    ["A", "B", "C"] 30 (by decide) (by decide)).2.1

/-- A renew presenting a token that no longer matches the row fails with
LostLeaseError and mutates nothing. -/
lemma renew_token_mismatch (r : LeaseRow) (h : String) (tok d now : Nat)
    (hne : r.token ≠ tok) : renew r h tok d now = (RenewResult.lostLease, r) := by
  have hcond : ¬(r.holder = some h ∧ r.token = tok) := fun hx => hne hx.2
  unfold renew
  rw [if_neg hcond]

/-- A release presenting a token that no longer matches the row is a no-op. -/
lemma release_token_mismatch (r : LeaseRow) (h : String) (tok : Nat) (nd : Option Nat)
    (hne : r.token ≠ tok) : release r h tok nd = r := by
  have hcond : ¬(r.holder = some h ∧ r.token = tok) := fun hx => hne hx.2
  unfold release
  rw [if_neg hcond]

/-- C3: once another holder B successfully claims the lease that issued A's
token, a renew presenting that stale token fails with LostLeaseError and a
release presenting it is a no-op; neither call mutates the row. -/
theorem fencing_claim (r : LeaseRow) (A B : String) (issuedToken d2 now2 d now : Nat)
    (nd : Option Nat) (_hA : r.holder = some A) (htok : r.token = issuedToken)
    (hclaimB : (tryClaim r B d2 now2).1.isClaimed = true) :
    (renew (tryClaim r B d2 now2).2 A issuedToken d now).1 = RenewResult.lostLease ∧
    (renew (tryClaim r B d2 now2).2 A issuedToken d now).2 = (tryClaim r B d2 now2).2 ∧
    release (tryClaim r B d2 now2).2 A issuedToken nd = (tryClaim r B d2 now2).2 := by
  have hc : claimableAt r now2 = true := by
    cases hc : claimableAt r now2
    · simp [tryClaim, hc, ClaimResult.isClaimed] at hclaimB
    · rfl
  have hr2 : (tryClaim r B d2 now2).2.token = r.token + 1 := by
    rw [tryClaim_success_eq r B d2 now2 hc]
  have hne : (tryClaim r B d2 now2).2.token ≠ issuedToken := by
    rw [hr2]
    omega
  rw [renew_token_mismatch _ A issuedToken d now hne,
    release_token_mismatch _ A issuedToken nd hne]
  exact ⟨rfl, rfl, rfl⟩

/-- C3 witness: after B reclaims the expired lease A held with token 3, A's
renew with token 3 fails without mutation and A's release is a no-op. -/
theorem fencing_claim_witness :
    (renew (tryClaim rowBusy "B" 30 11).2 "A" 3 30 12).1 = RenewResult.lostLease ∧
    (renew (tryClaim rowBusy "B" 30 11).2 "A" 3 30 12).2 = (tryClaim rowBusy "B" 30 11).2 ∧
    release (tryClaim rowBusy "B" 30 11).2 "A" 3 (some 70) = (tryClaim rowBusy "B" 30 11).2 :=
  fencing_claim rowBusy "A" "B" 3 30 11 30 12 (some 70) rfl rfl (by decide)

/-- C4: a lease held by A with expiry T on which no renew or release ever
occurs is cleared by a janitor sweep at now past T plus the grace period;
the swept store reports the task id as affected and keeps the row with its
holder cleared, and a subsequent tryClaim by any holder B succeeds. -/
theorem recovery_claim (tid A B : String) (r : LeaseRow) (T grace now d now2 : Nat)
    (_hA : r.holder = some A) (hT : r.expiresAt = T) (hnow : T + grace < now) :
    (sweep now grace [(tid, r)]).1 = [tid] ∧
    (sweep now grace [(tid, r)]).2 = [(tid, clearHolder r)] ∧
    (tryClaim (clearHolder r) B d now2).1.isClaimed = true := by
  have hcut : r.expiresAt < now - grace := by omega
  refine ⟨?_, ?_, ?_⟩
  · simp [sweep, markOrphaned, hcut]
  · simp [sweep, markOrphaned, sweepRow, hcut]
  · simp [tryClaim, claimableAt, clearHolder, ClaimResult.isClaimed]

/-- C4 witness: the lease A held with expiry 10 is swept at time 16 with
grace 5, the row survives with holder cleared, and B's later claim
succeeds. -/
theorem recovery_claim_witness :
    (sweep 16 5 [("cleanup", rowBusy)]).1 = ["cleanup"] ∧
    (sweep 16 5 [("cleanup", rowBusy)]).2 = [("cleanup", clearHolder rowBusy)] ∧
    (tryClaim (clearHolder rowBusy) "B" 30 60).1.isClaimed = true :=
  recovery_claim "cleanup" "A" "B" rowBusy 10 5 16 30 60 rfl rfl (by decide)

/-- C6: when the claim succeeds and the work function throws or exceeds its
timeout, the scheduling loop tick classifies the failure as
TaskExecutionError, logs it with the task id, releases the lease, raises
nothing out of the loop, and keeps the loop alive. -/
theorem loop_error_handling_claim (tid holderId : String) (r : LeaseRow)
    (d timeout grace now cadence : Nat) (w : WorkBehavior)
    (hclaim : claimableAt r now = true)
    (hfail : (runWithTimeout now timeout grace w).outcome = ExecOutcome.taskExecutionError) :
    (runTick tid holderId r d timeout grace now cadence w).1.raised = none ∧
    (runTick tid holderId r d timeout grace now cadence w).1.loopAlive = true ∧
    (runTick tid holderId r d timeout grace now cadence w).1.outcome = TickOutcome.failed ∧
    ({ taskId := tid, message := "TaskExecutionError" } : LogEntry)
      ∈ (runTick tid holderId r d timeout grace now cadence w).1.log ∧
    (runTick tid holderId r d timeout grace now cadence w).2.holder = none := by
  have hstep := tryClaim_success_eq r holderId d now hclaim
  simp only [runTick, hstep, hfail]
  simp [release]

/-- C6 witness: a never-returning work function on a free row is classified
as TaskExecutionError, logged, the lease released, and the loop survives. -/
theorem loop_error_handling_claim_witness :
    (runTick "report" "A" rowFree 30 5 2 0 60 WorkBehavior.neverReturns).1.raised = none ∧
    (runTick "report" "A" rowFree 30 5 2 0 60 WorkBehavior.neverReturns).1.loopAlive = true ∧
    (runTick "report" "A" rowFree 30 5 2 0 60
        WorkBehavior.neverReturns).1.outcome = TickOutcome.failed ∧
    ({ taskId := "report", message := "TaskExecutionError" } : LogEntry)
      ∈ (runTick "report" "A" rowFree 30 5 2 0 60 WorkBehavior.neverReturns).1.log ∧
    (runTick "report" "A" rowFree 30 5 2 0 60 WorkBehavior.neverReturns).2.holder = none :=
  loop_error_handling_claim "report" "A" rowFree 30 5 2 0 60 WorkBehavior.neverReturns
    (by decide) (by decide)

/-- Clearing a holder via sweepRow never changes the key. -/
lemma sweepRow_fst (c : Nat) (p : String × LeaseRow) : (sweepRow c p).1 = p.1 := by
  unfold sweepRow
  split <;> rfl

/-- The janitor sweep preserves the list of task ids (no row is deleted or
added and the order is kept). -/
lemma markOrphaned_keys (c : Nat) (store : List (String × LeaseRow)) :
    (markOrphaned c store).2.map Prod.fst = store.map Prod.fst := by
  induction store with
  | nil => rfl
  | cons p rest ih =>
    simp only [markOrphaned, List.map_cons] at ih ⊢
    rw [sweepRow_fst, ih]

/-- C7: markOrphaned clears the holder on exactly the rows whose expiry is
older than the cutoff, whoever holds them, reports exactly those task ids as
affected, deletes no row, and leaves rows with unexpired leases unchanged. -/
theorem markOrphaned_frame_claim (c : Nat) (store : List (String × LeaseRow))
    (tid : String) (r : LeaseRow) :
    (markOrphaned c store).2.map Prod.fst = store.map Prod.fst ∧
    (markOrphaned c store).2.length = store.length ∧
    (tid ∈ (markOrphaned c store).1 ↔ ∃ row, (tid, row) ∈ store ∧ row.expiresAt < c) ∧
    ((tid, r) ∈ store → ¬r.expiresAt < c → (tid, r) ∈ (markOrphaned c store).2) ∧
    ((tid, r) ∈ store → r.expiresAt < c → (tid, clearHolder r) ∈ (markOrphaned c store).2) := by
  refine ⟨markOrphaned_keys c store, ?_, ?_, ?_, ?_⟩
  · simp [markOrphaned]
  · simp only [markOrphaned, List.mem_map, List.mem_filter]
    constructor
    · rintro ⟨⟨k, row⟩, ⟨hmem, hq⟩, rfl⟩
      exact ⟨row, hmem, of_decide_eq_true hq⟩
    · rintro ⟨row, hmem, hlt⟩
      exact ⟨(tid, row), ⟨hmem, decide_eq_true hlt⟩, rfl⟩
  · intro hmem hge
    exact List.mem_map.mpr ⟨(tid, r), hmem, by simp [sweepRow, hge]⟩
  · intro hmem hlt
    exact List.mem_map.mpr ⟨(tid, r), hmem, by simp [sweepRow, hlt, clearHolder]⟩

/-- An old held row and a fresh held row, witness inputs for the sweep. -/
def rowOld : LeaseRow :=
  { holder := some "X", expiresAt := 3, nextDueAt := none, token := 1 }

/-- A row whose lease has not expired at the witness cutoff. -/
def rowNew : LeaseRow :=
  { holder := some "Y", expiresAt := 100, nextDueAt := none, token := 2 }

/-- A two-row witness store mixing an orphaned and a live lease. -/
def storeW : List (String × LeaseRow) :=
  [("a", rowOld), ("b", rowNew)]

/-- C7 witness: with cutoff 7 the sweep keeps both task ids, reports only
the expired row, preserves the live row untouched and clears the old one. -/
theorem markOrphaned_frame_claim_witness :
    (markOrphaned 7 storeW).2.map Prod.fst = storeW.map Prod.fst ∧
    "a" ∈ (markOrphaned 7 storeW).1 ∧
    ("b", rowNew) ∈ (markOrphaned 7 storeW).2 ∧
    ("a", clearHolder rowOld) ∈ (markOrphaned 7 storeW).2 :=
  ⟨(markOrphaned_frame_claim 7 storeW "a" rowOld).1,
   (markOrphaned_frame_claim 7 storeW "a" rowOld).2.2.1.mpr ⟨rowOld, by decide, by decide⟩,
   (markOrphaned_frame_claim 7 storeW "b" rowNew).2.2.2.1 (by decide) (by decide),
   (markOrphaned_frame_claim 7 storeW "a" rowOld).2.2.2.2 (by decide) (by decide)⟩

/-- C5: for a work function that never returns, the cancellation signal is
raised when the execution timeout elapses, the outcome is classified as
TaskExecutionError, and the lease is force-released no later than timeout
plus the bounded grace after the claim; moreover no behavior of the work
function can delay the release past that bound, so the scheduler never
blocks indefinitely. -/
theorem timeout_enforcement_claim (claimAt timeout grace : Nat) :
    (runWithTimeout claimAt timeout grace WorkBehavior.neverReturns).cancellationRaisedAt
        = some (claimAt + timeout) ∧
    (runWithTimeout claimAt timeout grace WorkBehavior.neverReturns).outcome
        = ExecOutcome.taskExecutionError ∧
    (runWithTimeout claimAt timeout grace WorkBehavior.neverReturns).leaseReleasedAt
        ≤ claimAt + timeout + grace ∧
    ∀ w : WorkBehavior,
      (runWithTimeout claimAt timeout grace w).leaseReleasedAt ≤ claimAt + timeout + grace := by
  refine ⟨rfl, rfl, Nat.le_refl _, ?_⟩
  intro w
  cases w with
  | completes dur throws =>
    by_cases hd : dur ≤ timeout
    · simp only [runWithTimeout, if_pos hd]
      omega
    · simp only [runWithTimeout, if_neg hd]
      have : min (dur - timeout) grace ≤ grace := Nat.min_le_right _ _
      omega
  | neverReturns => exact Nat.le_refl _

/-- A concrete external configuration whose janitor interval differs from
one minute. -/
def configCex : SchedulerExternalConfig :=
  { leaseDurationDefaultMs := 10000, janitorIntervalMs := 12345, janitorGracePeriodMs := 20000 }

/-- C8 counterexample: forPlugin hands the janitor a wait of 60000 ms even
when the external configuration specifies a different janitor interval, so
the sweep interval is not supplied by external process configuration. -/
theorem janitor_interval_counterexample :
    (forPlugin configCex "catalog").janitor.waitBetweenRunsMs ≠ configCex.janitorIntervalMs ∧
    (forPlugin configCex "catalog").janitor.waitBetweenRunsMs = 60000 := by
  exact ⟨by decide, rfl⟩

/-- C8 amended: the Janitor is started and runs on a fixed, coarse interval
of one minute, hardcoded at scheduler construction, the same for every
external configuration and every plugin id (hence independent of any
individual task's cadence); the interval is not supplied by external
configuration. -/
theorem janitor_interval_amended_claim (c c2 : SchedulerExternalConfig) (pid pid2 : String) :
    (forPlugin c pid).janitor.waitBetweenRunsMs = 60000 ∧
    (forPlugin c pid).janitor.waitBetweenRunsMs = (forPlugin c2 pid2).janitor.waitBetweenRunsMs ∧
    (forPlugin c pid).janitor.started = true :=
  ⟨rfl, rfl, rfl⟩

/-- Iterating the once wrapper on a state that has already run changes
nothing. -/
lemma invokeTimes_of_hasRun (skip : Bool) (n : Nat) (s : FactoryState)
    (h : s.hasRun = true) : invokeTimes skip n s = s := by
  induction n with
  | zero => rfl
  | succ n ih =>
    show invokeTimes skip n (invokeDatabaseFactory skip s) = s
    rw [show invokeDatabaseFactory skip s = s from by simp [invokeDatabaseFactory, h]]
    exact ih

/-- C9: however many times the scheduler instance's once-wrapped database
factory is invoked, the migration runner executes at most once and the
janitor is started at most once, and with migrations.skip set the migration
never runs at all. -/
theorem factory_once_claim (skip : Bool) (n : Nat) :
    (invokeTimes skip n freshFactoryState).migrateCount ≤ 1 ∧
    (invokeTimes skip n freshFactoryState).janitorStartCount ≤ 1 ∧
    (skip = true → (invokeTimes skip n freshFactoryState).migrateCount = 0) := by
  cases n with
  | zero => simp [invokeTimes, freshFactoryState]
  | succ n =>
    have key : invokeTimes skip (n + 1) freshFactoryState =
        invokeDatabaseFactory skip freshFactoryState := by
      show invokeTimes skip n (invokeDatabaseFactory skip freshFactoryState) = _
      exact invokeTimes_of_hasRun skip n _ (by simp [invokeDatabaseFactory, freshFactoryState])
    rw [key]
    cases skip <;> simp [invokeDatabaseFactory, freshFactoryState]

/-- C9 witness: five invocations with migrations.skip set run the migration
zero times, and five invocations without skip start the janitor once. -/
theorem factory_once_claim_witness :
    (invokeTimes true 5 freshFactoryState).migrateCount = 0 :=
  (factory_once_claim true 5).2.2 rfl

/-- C10: createServiceRef returns a reference whose id and scope are the
given options, whose marker field is the string service, whose toString
renders serviceRef around the id, and whose T property throws an Error on
every read, never returning a value. -/
theorem createServiceRef_claim (T : Type) (id : String) (scope : Scope) :
    (createServiceRef T id scope).id = id ∧
    (createServiceRef T id scope).scope = scope ∧
    (createServiceRef T id scope).refTag = "service" ∧
    (createServiceRef T id scope).toStr = "serviceRef\x7b" ++ id ++ "\x7d" ∧
    ∀ v : T, (createServiceRef T id scope).readT ≠ Except.ok v := by
  refine ⟨rfl, rfl, rfl, rfl, ?_⟩
  intro v hv
  simp [createServiceRef] at hv

end BackstageTasks
